import Mathlib

/-!
Shallow embedding of the principal-backed identity and role-mapping layer of
the ccn_proxy repository: the `types` package (roles, principals, local users,
LDAP role mappings), the `usermgmt` package (local user and LDAP mapping CRUD
over a single-key distributed store, with manual forward/compensating writes),
and the relevant `proxy` helper functions (update merging, authorization view
conversion).

Modelling conventions:
* The Go `types.StateDriver` interface (read / write / clear / read-all over
  hierarchical string keys such as `/ccn_proxy/principals/<uuid>`) is modelled
  by `DriverState`: an association list from tagged keys to typed values plus
  a counter of store mutations.  The three fixed key roots are distinct string
  constants in the source, so tagged keys (`Key`) are a faithful, injective
  rendering of `GetPath`.
* JSON marshalling of a record cannot fail for these struct types, and
  unmarshalling is the inverse of marshalling; the store therefore holds typed
  `Value`s directly and unmarshal is constructor projection.
* Store faults are injected through `Faults`: for each key, `Write` and
  `Clear`/`ClearState` either succeed or return a chosen error, matching the
  single-key, non-transactional store of the source.
* Go `error` values are the sentinel errors of `common/errors` plus
  `fmt.Errorf` results carrying a message string (`Err.errorf`); the sentinel
  comparisons (`switch err`) of the source become matches on `Err`.
* `bcrypt` hashing (`common.GenPasswordHash`) is opaque in the source and is
  threaded through as a function argument `hash : String → String`;
  `PasswordHash []byte` is modelled as a `String` (the source itself converts
  it with `string(user.PasswordHash)`).
-/

namespace CcnProxy

/-- `types.RoleType`: the pre-defined roles `Admin`, `Ops`, `Invalid`.
The Go zero value of `RoleType` is `Admin` (iota 0). -/
inductive RoleType
  | admin
  | ops
  | invalid
deriving DecidableEq

/-- `RoleType.String` from `common/types/types.go`: `ops`/`admin` map to their
names, every other value (the default branch) to the empty string. -/
def RoleType.String : RoleType → String
  | .ops => "ops"
  | .admin => "admin"
  | .invalid => ""

/-- The sentinel errors of `common/errors` together with `fmt.Errorf` results.
Sentinels compare equal only to themselves, as Go interface equality does. -/
inductive Err
  | keyExists
  | keyNotFound
  | illegalOperation
  | illegalArgument
  | errorf (msg : String)
deriving DecidableEq

/-- The message text of an error, used when an error is interpolated into a
`fmt.Errorf` format string. -/
def Err.text : Err → String
  | .keyExists => "key exists"
  | .keyNotFound => "key not found"
  | .illegalOperation => "illegal operation"
  | .illegalArgument => "illegal argument"
  | .errorf m => m

/-- Renders `%q` interpolation of a string. -/
def quoteStr (s : String) : String := "\"" ++ s ++ "\""

/-- `types.Role` from `common/types/types.go`: parses a role string, returning
`Invalid` plus `ErrIllegalArgument` for unrecognized strings. -/
def Role (roleStr : String) : RoleType × Option Err :=
  if roleStr = RoleType.admin.String then (RoleType.admin, none)
  else if roleStr = RoleType.ops.String then (RoleType.ops, none)
  else (RoleType.invalid, some Err.illegalArgument)

/-- `types.Principal`: a user-to-role association with a unique id. -/
structure Principal where
  uuid : String
  role : RoleType
deriving DecidableEq

/-- `types.LdapRoleMapping`: an LDAP group to role binding, 1:1 with a
principal. -/
structure LdapRoleMapping where
  groupName : String
  principal : Principal
  principalID : String
deriving DecidableEq

/-- `types.LocalUser` as declared in `src/common/types/types.go`: username,
plaintext password (used only in flight), disable flag and password hash. -/
structure LocalUser where
  username : String
  password : String
  disable : Bool
  passwordHash : String
deriving DecidableEq

/-- `types.InternalLocalUser` as used by the proxy helper layer: the local
user fields plus the associated principal and its id.  The usermgmt layer in
this tree persists only the `LocalUser` fields (see
`InternalLocalUser.toLocalUser`). -/
structure InternalLocalUser where
  username : String
  password : String
  disable : Bool
  principal : Principal
  principalID : String
  passwordHash : String
deriving DecidableEq

/-- The `usermgmt` local-user functions in this tree operate on the
`types.LocalUser` fields of the object handed down by the proxy layer;
the principal fields are not part of the persisted local-user record. -/
def InternalLocalUser.toLocalUser (u : InternalLocalUser) : LocalUser :=
  { username := u.username
    password := u.password
    disable := u.disable
    passwordHash := u.passwordHash }

/-- Modelled from the spec: `common.IsEmpty` is not under `src/`; the spec
treats an empty or absent optional string field as unset, so this checks
string emptiness. -/
def IsEmpty (s : String) : Bool := s == ""

/-! ## The store model -/

/-- The three fixed key roots of the source: `/ccn_proxy/principals`,
`/ccn_proxy/ldap_mappings` and `/ccn_proxy/local_users`. -/
inductive Root
  | principals
  | ldapMappings
  | localUsers
deriving DecidableEq

/-- A hierarchical store key `root ++ "/" ++ name` in tagged form. -/
structure Key where
  root : Root
  name : String
deriving DecidableEq

/-- `usermgmt.GetPath` applied to a root and one subkey. -/
def GetPath (r : Root) (name : String) : Key := ⟨r, name⟩

/-- A value persisted in the store (records are stored as their JSON
serialization in the source; see the marshalling convention above). -/
inductive Value
  | principal (p : Principal)
  | ldapMapping (m : LdapRoleMapping)
  | localUser (u : LocalUser)
deriving DecidableEq

/-- `json.Unmarshal` into `types.LdapRoleMapping`. -/
def Value.asLdapMapping : Value → Option LdapRoleMapping
  | .ldapMapping m => some m
  | _ => none

/-- `json.Unmarshal` into `types.LocalUser`. -/
def Value.asLocalUser : Value → Option LocalUser
  | .localUser u => some u
  | _ => none

/-- The contents of the key-value store: an association list keyed by `Key`
(first binding wins; `write` keeps keys unique). -/
abbrev Store := List (Key × Value)

/-- The state driver: store contents plus a counter of store mutations
(successful `Write` and `Clear`/`ClearState` calls). -/
structure DriverState where
  store : Store
  writes : Nat
deriving DecidableEq

/-- Injected store faults: for each key, whether `Write` or `Clear` fails and
with which error.  `Read`/`ReadAll` fail only with the not-found signal
derived from the store contents. -/
structure Faults where
  writeErr : Key → Option Err
  clearErr : Key → Option Err

/-- The fault-free store. -/
def noFaults : Faults := ⟨fun _ => none, fun _ => none⟩

/-- First value bound to `key`, if any. -/
def lookupKey (st : Store) (key : Key) : Option Value :=
  (st.find? (fun kv => kv.1 == key)).map (fun kv => kv.2)

/-- `StateDriver.Read`: the bytes under a key, or `ErrKeyNotFound`. -/
def DriverState.read (s : DriverState) (key : Key) : Except Err Value :=
  match lookupKey s.store key with
  | some v => .ok v
  | none => .error Err.keyNotFound

/-- `StateDriver.Write`: bind `key` to `v` (replacing any previous binding)
or fail with the injected error. -/
def DriverState.write (f : Faults) (s : DriverState) (key : Key) (v : Value) :
    Except Err DriverState :=
  match f.writeErr key with
  | some e => .error e
  | none => .ok ⟨(key, v) :: s.store.filter (fun kv => kv.1 != key), s.writes + 1⟩

/-- `StateDriver.Clear`/`ClearState`: remove the binding of `key` or fail with
the injected error. -/
def DriverState.clear (f : Faults) (s : DriverState) (key : Key) :
    Except Err DriverState :=
  match f.clearErr key with
  | some e => .error e
  | none => .ok ⟨s.store.filter (fun kv => kv.1 != key), s.writes + 1⟩

/-- `StateDriver.ReadAll`: all values under a root, or `ErrKeyNotFound` when
the namespace is empty (the hierarchical-deletion quirk of the source store). -/
def DriverState.readAll (s : DriverState) (r : Root) : Except Err (List Value) :=
  let vs := (s.store.filter (fun kv => kv.1.root == r)).map (fun kv => kv.2)
  if vs.isEmpty then .error Err.keyNotFound else .ok vs

/-! ## `usermgmt/common.go`: shared principal helpers -/

/-- `usermgmt.deletePrincipal`: best-effort clear of the principal key,
wrapping a clear failure in a formatted error.  The state driver argument of
the source is the threaded `DriverState`. -/
def deletePrincipal (f : Faults) (principal : Principal) (s : DriverState) :
    Option Err × DriverState :=
  match DriverState.clear f s (GetPath Root.principals principal.uuid) with
  | .ok s1 => (none, s1)
  | .error e =>
      (some (Err.errorf ("Failed to clear principal " ++ quoteStr principal.uuid
        ++ " from store " ++ e.text)), s)

/-- `usermgmt.addPrincipal`: read-check then write of the principal record.
A pre-existing key yields a formatted key-exists error (not the sentinel). -/
def addPrincipal (f : Faults) (principal : Principal) (s : DriverState) :
    Option Err × DriverState :=
  match s.read (GetPath Root.principals principal.uuid) with
  | .ok _ =>
      (some (Err.errorf (Err.keyExists.text ++ ": " ++ quoteStr principal.uuid)), s)
  | .error e =>
      if e = Err.keyNotFound then
        match DriverState.write f s (GetPath Root.principals principal.uuid)
            (Value.principal principal) with
        | .ok s1 => (none, s1)
        | .error we =>
            (some (Err.errorf
              ("Failed to write local user principal to data store " ++ we.text)), s)
      else (some e, s)

/-! ## `usermgmt` LDAP mapping store -/

/-- `usermgmt.getLdapMapping`: read and unmarshal the mapping of a group;
`ErrKeyNotFound` passes through as the sentinel, other read errors are
wrapped. -/
def getLdapMapping (ldapGroupName : String) (s : DriverState) :
    Except Err LdapRoleMapping :=
  match s.read (GetPath Root.ldapMappings ldapGroupName) with
  | .error e =>
      if e = Err.keyNotFound then .error Err.keyNotFound
      else .error (Err.errorf ("Failed to read LDAP mapping  for group "
        ++ quoteStr ldapGroupName ++ " from data store: " ++ e.text))
  | .ok v =>
      match v.asLdapMapping with
      | some m => .ok m
      | none => .error (Err.errorf ("Failed to unmarshal LDAP mapping for group "
          ++ quoteStr ldapGroupName))

/-- `usermgmt.AddLdapMapping`: existence check on the group key, forward write
of the principal, forward write of the mapping; on mapping-write failure the
just-created principal is cleared (result discarded) and a formatted error
embedding the write error is returned. -/
def AddLdapMapping (f : Faults) (ldapMapping : LdapRoleMapping) (s : DriverState) :
    Option Err × DriverState :=
  match getLdapMapping ldapMapping.groupName s with
  | .ok _ => (some Err.keyExists, s)
  | .error e =>
      if e = Err.keyNotFound then
        match addPrincipal f ldapMapping.principal s with
        | (some pe, s1) => (some pe, s1)
        | (none, s1) =>
            match DriverState.write f s1
                (GetPath Root.ldapMappings ldapMapping.groupName)
                (Value.ldapMapping ldapMapping) with
            | .ok s2 => (none, s2)
            | .error we =>
                let cleanup := deletePrincipal f ldapMapping.principal s1
                (some (Err.errorf
                  ("Failed to write LDAP group mapping info. to data store "
                    ++ we.text)), cleanup.2)
      else (some e, s)

/-- `usermgmt.DeleteLdapMapping`: read the mapping, delete its principal, then
delete the mapping; on mapping-delete failure the principal is re-added
(result discarded) and a formatted error is returned. -/
def DeleteLdapMapping (f : Faults) (ldapGroupName : String) (s : DriverState) :
    Option Err × DriverState :=
  match getLdapMapping ldapGroupName s with
  | .error e => (some e, s)
  | .ok m =>
      match deletePrincipal f m.principal s with
      | (some e, s1) => (some e, s1)
      | (none, s1) =>
          match DriverState.clear f s1 (GetPath Root.ldapMappings ldapGroupName) with
          | .ok s2 => (none, s2)
          | .error ce =>
              let cleanup := addPrincipal f m.principal s1
              (some (Err.errorf ("Failed to delete group " ++ quoteStr ldapGroupName
                ++ " from store " ++ ce.text)), cleanup.2)

/-- `usermgmt.UpdateLdapMapping`: delete-then-add; `ErrKeyNotFound` from the
delete passes through, any other delete failure is replaced by a generic
formatted message (the source text reads: Couldnt update ldap mapping
information for group). -/
def UpdateLdapMapping (f : Faults) (ldapGroupName : String)
    (ldapMapping : LdapRoleMapping) (s : DriverState) : Option Err × DriverState :=
  match DeleteLdapMapping f ldapGroupName s with
  | (none, s1) => AddLdapMapping f ldapMapping s1
  | (some e, s1) =>
      if e = Err.keyNotFound then (some e, s1)
      else (some (Err.errorf ("Couldnt update ldap mapping information for group "
        ++ quoteStr ldapGroupName)), s1)

/-- `usermgmt.GetLdapMapping` (the state driver lookup is the threaded state). -/
def GetLdapMapping (ldapGroupName : String) (s : DriverState) :
    Except Err LdapRoleMapping :=
  getLdapMapping ldapGroupName s

/-- Unmarshal loop of `usermgmt.GetLdapMappings`. -/
def unmarshalLdapMappings : List Value → Except Err (List LdapRoleMapping)
  | [] => .ok []
  | v :: rest =>
      match v.asLdapMapping with
      | none => .error (Err.errorf "Failed to unmarshal LDAP mapping")
      | some m =>
          match unmarshalLdapMappings rest with
          | .ok ms => .ok (m :: ms)
          | .error e => .error e

/-- `usermgmt.GetLdapMappings`: list the mapping namespace, normalizing the
stores not-found signal for an empty namespace into the empty list. -/
def GetLdapMappings (s : DriverState) : Except Err (List LdapRoleMapping) :=
  match s.readAll Root.ldapMappings with
  | .error e =>
      if e = Err.keyNotFound then .ok []
      else .error (Err.errorf "Couldnt fetch LDAP mappings from data store")
  | .ok raw => unmarshalLdapMappings raw

/-! ## `usermgmt` local user store -/

/-- `usermgmt.getLocalUser`: read and unmarshal a local user record;
`ErrKeyNotFound` passes through as the sentinel. -/
def getLocalUser (username : String) (s : DriverState) : Except Err LocalUser :=
  match s.read (GetPath Root.localUsers username) with
  | .error e =>
      if e = Err.keyNotFound then .error Err.keyNotFound
      else .error (Err.errorf ("Failed to read local user " ++ quoteStr username
        ++ " data from store"))
  | .ok v =>
      match v.asLocalUser with
      | some u => .ok u
      | none => .error (Err.errorf ("Failed to unmarshal local user "
          ++ quoteStr username ++ " info"))

/-- Unmarshal loop of `usermgmt.GetLocalUsers`. -/
def unmarshalLocalUsers : List Value → Except Err (List LocalUser)
  | [] => .ok []
  | v :: rest =>
      match v.asLocalUser with
      | none => .error (Err.errorf "Failed to unmarshal local user")
      | some u =>
          match unmarshalLocalUsers rest with
          | .ok us => .ok (u :: us)
          | .error e => .error e

/-- `usermgmt.GetLocalUsers`: list the local-user namespace, normalizing the
stores not-found signal for an empty namespace into the empty list. -/
def GetLocalUsers (s : DriverState) : Except Err (List LocalUser) :=
  match s.readAll Root.localUsers with
  | .error e =>
      if e = Err.keyNotFound then .ok []
      else .error (Err.errorf "Couldnt fetch users from data store")
  | .ok raw => unmarshalLocalUsers raw

/-- `usermgmt.GetLocalUser`. -/
def GetLocalUser (username : String) (s : DriverState) : Except Err LocalUser :=
  getLocalUser username s

/-- `usermgmt.DeleteLocalUser`: the two built-in usernames are rejected with
`ErrIllegalOperation` before any store access; otherwise read-check then clear
of the user key.  No principal is touched in this tree. -/
def DeleteLocalUser (f : Faults) (username : String) (s : DriverState) :
    Option Err × DriverState :=
  if username = RoleType.admin.String ∨ username = RoleType.ops.String then
    (some Err.illegalOperation, s)
  else
    match getLocalUser username s with
    | .error e => (some e, s)
    | .ok _ =>
        match DriverState.clear f s (GetPath Root.localUsers username) with
        | .ok s1 => (none, s1)
        | .error ce =>
            (some (Err.errorf ("Failed to clear " ++ quoteStr username
              ++ " from store " ++ ce.text)), s)

/-- `usermgmt.AddLocalUser`: existence check on the user key; the password
hash is computed from the plaintext password when no hash was carried in; the
raw password is blanked before the record is marshalled and written.  No
principal is created in this tree. -/
def AddLocalUser (f : Faults) (hash : String → String) (user : LocalUser)
    (s : DriverState) : Option Err × DriverState :=
  let key := GetPath Root.localUsers user.username
  match s.read key with
  | .ok _ => (some Err.keyExists, s)
  | .error e =>
      if e = Err.keyNotFound then
        let user1 :=
          if IsEmpty user.passwordHash then
            { user with passwordHash := hash user.password }
          else user
        let user2 := { user1 with password := "" }
        match DriverState.write f s key (Value.localUser user2) with
        | .ok s1 => (none, s1)
        | .error we =>
            (some (Err.errorf ("Failed to write local user info. to data store "
              ++ we.text)), s)
      else (some e, s)

/-- `usermgmt.UpdateLocalUser`: delete-then-add; a non-empty in-flight
password resets the carried hash so that `AddLocalUser` recomputes it;
`ErrKeyNotFound` and `ErrIllegalOperation` pass through, other delete
failures are replaced by a generic formatted message. -/
def UpdateLocalUser (f : Faults) (hash : String → String) (username : String)
    (user : LocalUser) (s : DriverState) : Option Err × DriverState :=
  match DeleteLocalUser f username s with
  | (none, s1) =>
      let user1 :=
        if ¬ IsEmpty user.password then { user with passwordHash := "" } else user
      AddLocalUser f hash user1 s1
  | (some e, s1) =>
      if e = Err.keyNotFound ∨ e = Err.illegalOperation then (some e, s1)
      else (some (Err.errorf ("Couldnt update user information: "
        ++ quoteStr username)), s1)

/-! ## `proxy` helper layer (`src/unnamed/part_000`) -/

/-- The proxy wire struct `ldapMapping`: group name plus role as string. -/
structure ldapMapping where
  groupName : String
  role : String
deriving DecidableEq

/-- The proxy wire struct `localUser`: username, disable flag, role string. -/
structure localUser where
  username : String
  disable : Bool
  role : String
deriving DecidableEq

/-- The proxy request struct `localUserCreateRequest`. -/
structure localUserCreateRequest where
  username : String
  password : String
  role : String
  disable : Bool
deriving DecidableEq

/-- An HTTP response body produced by the proxy helpers: nothing, an error
text, or the JSON serialization of a wire struct (marshalling of these
structs cannot fail). -/
inductive Resp
  | empty
  | text (msg : String)
  | ldapJson (lm : ldapMapping)
  | userJson (lu : localUser)
deriving DecidableEq

/-- `proxy.updateLdapMappingInfo`: build the update object from the actual
record (a Go struct literal, so the role starts at the `RoleType` zero value
`Admin`), set the role only when the request carries one, and skip the store
round-trip entirely when nothing was set (`updateRequired` stays false). -/
def updateLdapMappingInfo (f : Faults) (updateReq : ldapMapping)
    (actual : LdapRoleMapping) (s : DriverState) : (Nat × Resp) × DriverState :=
  let lm : ldapMapping :=
    { groupName := actual.groupName, role := actual.principal.role.String }
  if IsEmpty updateReq.role then
    ((200, Resp.ldapJson lm), s)
  else if (Role updateReq.role).2.isSome then
    ((500, Resp.text ("Invalid role " ++ quoteStr updateReq.role)), s)
  else
    let updateMappingObj : LdapRoleMapping :=
      { principalID := actual.principalID
        groupName := actual.groupName
        principal := { uuid := actual.principal.uuid
                       role := (Role updateReq.role).1 } }
    match UpdateLdapMapping f actual.groupName updateMappingObj s with
    | (none, s1) =>
        ((200, Resp.ldapJson { lm with role := updateMappingObj.principal.role.String }), s1)
    | (some e, s1) =>
        if e = Err.keyNotFound then ((404, Resp.empty), s1)
        else ((500, Resp.text e.text), s1)

/-- `proxy.updateLdapMappingHelper`: fetch the current mapping and delegate. -/
def updateLdapMappingHelper (f : Faults) (ldapGroupName : String)
    (ldapMappingUpdateReq : ldapMapping) (s : DriverState) :
    (Nat × Resp) × DriverState :=
  if IsEmpty ldapGroupName then ((400, Resp.text "Empty group name"), s)
  else
    match GetLdapMapping ldapGroupName s with
    | .ok m => updateLdapMappingInfo f ldapMappingUpdateReq m s
    | .error e =>
        if e = Err.keyNotFound then ((404, Resp.empty), s)
        else ((500, Resp.text e.text), s)

/-- `proxy.updateLocalUserInfo`: build the updated user from a Go struct
literal (unlisted fields take zero values: empty strings, `false`, the
`RoleType` zero value `Admin`), overwrite role / disable / password hash from
the request fields that are set, and always call `UpdateLocalUser`. -/
def updateLocalUserInfo (f : Faults) (hash : String → String) (username : String)
    (updateReq : localUserCreateRequest) (actual : InternalLocalUser)
    (s : DriverState) : (Nat × Resp) × DriverState :=
  let u0 : InternalLocalUser :=
    { username := actual.username
      password := ""
      disable := false
      principal := { uuid := actual.principalID, role := RoleType.admin }
      principalID := actual.principalID
      passwordHash := "" }
  if ¬ IsEmpty updateReq.role ∧ (Role updateReq.role).2.isSome then
    ((500, Resp.text ("Failed to map role " ++ quoteStr updateReq.role)), s)
  else
    let u1 :=
      if IsEmpty updateReq.role then u0
      else { u0 with principal := { u0.principal with role := (Role updateReq.role).1 } }
    let u2 :=
      if actual.disable != updateReq.disable then { u1 with disable := updateReq.disable }
      else u1
    let u3 :=
      if IsEmpty updateReq.password then u2
      else { u2 with passwordHash := hash updateReq.password }
    match UpdateLocalUser f hash username u3.toLocalUser s with
    | (none, s1) =>
        ((200, Resp.userJson { username := u3.username
                               disable := u3.disable
                               role := u3.principal.role.String }), s1)
    | (some e, s1) =>
        if e = Err.keyNotFound then ((404, Resp.empty), s1)
        else if e = Err.illegalOperation then
          ((400, Resp.text ("Cannot update built-in user " ++ quoteStr username)), s1)
        else ((500, Resp.text e.text), s1)

/-! ## Token / authorization view -/

/-- `types.TenantClaimKey`: prefix of tenant-scoped claim keys. -/
def TenantClaimKey : String := "tenant:"

/-- Modelled from the spec: the `types.Authorization` declaration is not under
`src/` (only its use in `convertAuthz` is); the spec gives the claim fields
id, principal name, claim key, claim value and local flag. -/
structure Authorization where
  uuid : String
  principalName : String
  claimKey : String
  claimValue : String
  localFlag : Bool
deriving DecidableEq

/-- Modelled from the spec: the `GetAuthorizationReply` declaration is not
under `src/` (only its construction in `convertAuthz` is); it is the display
view with the tenant name stripped of the prefix convention. -/
structure GetAuthorizationReply where
  authzUUID : String
  principalName : String
  tenantName : String
  localFlag : Bool
  role : String
deriving DecidableEq

/-- Go `strings.TrimPrefix`: drop the leading occurrence of a prefix, or
return the string unchanged when it is not a prefix. -/
def TrimPrefix (s pre : String) : String :=
  if pre.data.isPrefixOf s.data then ⟨s.data.drop pre.data.length⟩ else s

/-- `proxy.convertAuthz`: convert an Authorization claim into the reply
struct, stripping the tenant prefix convention from the claim key. -/
def convertAuthz (authz : Authorization) : GetAuthorizationReply :=
  { authzUUID := authz.uuid
    principalName := authz.principalName
    tenantName := TrimPrefix authz.claimKey TenantClaimKey
    localFlag := authz.localFlag
    role := authz.claimValue }

/-! ## Derived notions used in the statements -/

/-- Whether a store entry is a Principal record whose id equals `id`. -/
def principalPred (id : String) : Key × Value → Bool := fun kv =>
  match kv.2 with
  | Value.principal p => p.uuid == id
  | _ => false

/-- Number of Principal records in the store whose id equals `id` (the
"exactly one Principal" count of the data-model invariant). -/
def countPrincipalsWithId (st : Store) (id : String) : Nat :=
  (st.filter (principalPred id)).length

/-- Store hygiene maintained by the principal helpers: every Principal value
is stored under the principals root at its own uuid. -/
def principalsWF (st : Store) : Bool :=
  st.all (fun kv =>
    match kv.2 with
    | Value.principal p => kv.1 == GetPath Root.principals p.uuid
    | _ => true)

/-- The local-user record as `AddLocalUser` persists it: password blanked,
hash taken from the carried hash or computed from the plaintext password. -/
def storedLocalUser (hash : String → String) (u : LocalUser) : LocalUser :=
  { username := u.username
    password := ""
    disable := u.disable
    passwordHash := if IsEmpty u.passwordHash then hash u.password else u.passwordHash }

/-! ## Store lemmas -/

theorem lookupKey_cons_self (st : Store) (k : Key) (v : Value) :
    lookupKey ((k, v) :: st) k = some v := by
  simp [lookupKey, List.find?]

theorem lookupKey_filter_self (st : Store) (k : Key) :
    lookupKey (st.filter (fun kv => kv.1 != k)) k = none := by
  simp only [lookupKey, Option.map_eq_none', List.find?_eq_none, List.mem_filter]
  intro kv hkv
  simpa using hkv.2

theorem filter_ne_of_lookup_none {st : Store} {k : Key}
    (h : lookupKey st k = none) : st.filter (fun kv => kv.1 != k) = st := by
  simp only [lookupKey, Option.map_eq_none', List.find?_eq_none] at h
  refine List.filter_eq_self.mpr fun kv hkv => ?_
  simpa using h kv hkv

theorem countPrincipalsWithId_filter_le (st : Store) (q : Key × Value → Bool)
    (id : String) :
    countPrincipalsWithId (st.filter q) id ≤ countPrincipalsWithId st id := by
  unfold countPrincipalsWithId
  exact ((List.filter_sublist st).filter _).length_le

theorem countPrincipalsWithId_eq_zero {st : Store} {id : String}
    (hwf : principalsWF st = true)
    (h : lookupKey st (GetPath Root.principals id) = none) :
    countPrincipalsWithId st id = 0 := by
  simp only [lookupKey, Option.map_eq_none', List.find?_eq_none] at h
  simp only [principalsWF, List.all_eq_true] at hwf
  unfold countPrincipalsWithId
  rw [List.length_eq_zero, List.filter_eq_nil_iff]
  intro kv hkv
  intro hcount
  unfold principalPred at hcount
  match hv : kv.2 with
  | Value.principal p =>
      rw [hv] at hcount
      have hid : p.uuid = id := by simpa using hcount
      have hkey := hwf kv hkv
      rw [hv] at hkey
      have hkey2 : kv.1 = GetPath Root.principals p.uuid := by simpa using hkey
      exact h kv hkv (by simp [hkey2, hid])
  | Value.ldapMapping m => rw [hv] at hcount; simp at hcount
  | Value.localUser u => rw [hv] at hcount; simp at hcount

/-! ## Characterizations of the store operations -/

theorem AddLocalUser_eq_of_absent {f : Faults} {hf : String → String}
    {u : LocalUser} {s : DriverState}
    (hl : lookupKey s.store (GetPath Root.localUsers u.username) = none)
    (hw : f.writeErr (GetPath Root.localUsers u.username) = none) :
    AddLocalUser f hf u s =
      (none,
        ⟨(GetPath Root.localUsers u.username, Value.localUser (storedLocalUser hf u)) ::
            s.store.filter (fun kv => kv.1 != GetPath Root.localUsers u.username),
          s.writes + 1⟩) := by
  by_cases hE : IsEmpty u.passwordHash <;>
    simp [AddLocalUser, DriverState.read, DriverState.write, storedLocalUser,
      hl, hw, hE]

theorem AddLocalUser_write_fail {f : Faults} {hf : String → String}
    {u : LocalUser} {s : DriverState} {e : Err}
    (hl : lookupKey s.store (GetPath Root.localUsers u.username) = none)
    (hw : f.writeErr (GetPath Root.localUsers u.username) = some e) :
    AddLocalUser f hf u s =
      (some (Err.errorf ("Failed to write local user info. to data store "
        ++ e.text)), s) := by
  by_cases hE : IsEmpty u.passwordHash <;>
    simp [AddLocalUser, DriverState.read, DriverState.write, hl, hw, hE]

theorem AddLocalUser_of_present {f : Faults} {hf : String → String}
    {u : LocalUser} {s : DriverState} {v : Value}
    (hl : lookupKey s.store (GetPath Root.localUsers u.username) = some v) :
    AddLocalUser f hf u s = (some Err.keyExists, s) := by
  simp [AddLocalUser, DriverState.read, hl]

theorem AddLocalUser_ok_spec {f : Faults} {hf : String → String}
    {u : LocalUser} {s s1 : DriverState}
    (h : AddLocalUser f hf u s = (none, s1)) :
    lookupKey s.store (GetPath Root.localUsers u.username) = none ∧
    s1.store =
      (GetPath Root.localUsers u.username, Value.localUser (storedLocalUser hf u)) ::
        s.store.filter (fun kv => kv.1 != GetPath Root.localUsers u.username) := by
  rcases hl : lookupKey s.store (GetPath Root.localUsers u.username) with _ | v
  · refine ⟨rfl, ?_⟩
    rcases hw : f.writeErr (GetPath Root.localUsers u.username) with _ | e
    · rw [AddLocalUser_eq_of_absent hl hw] at h
      injection h with h1 h2
      subst h2
      rfl
    · rw [AddLocalUser_write_fail hl hw] at h
      simp at h
  · rw [AddLocalUser_of_present hl] at h
    simp at h

theorem DeleteLocalUser_not_builtin {f : Faults} {username : String}
    {s : DriverState}
    (hb : ¬ (username = RoleType.admin.String ∨ username = RoleType.ops.String)) :
    DeleteLocalUser f username s =
      match getLocalUser username s with
      | .error e => (some e, s)
      | .ok _ =>
          match DriverState.clear f s (GetPath Root.localUsers username) with
          | .ok s1 => (none, s1)
          | .error ce =>
              (some (Err.errorf ("Failed to clear " ++ quoteStr username
                ++ " from store " ++ ce.text)), s) := by
  simp [DeleteLocalUser, hb]

theorem DeleteLocalUser_ok_spec {f : Faults} {username : String}
    {s s1 : DriverState} (h : DeleteLocalUser f username s = (none, s1)) :
    s1.store = s.store.filter (fun kv => kv.1 != GetPath Root.localUsers username) := by
  by_cases hb : username = RoleType.admin.String ∨ username = RoleType.ops.String
  · simp [DeleteLocalUser, hb] at h
  · rw [DeleteLocalUser_not_builtin hb] at h
    rcases hg : getLocalUser username s with e | u <;> rw [hg] at h
    · simp at h
    · rcases hc : f.clearErr (GetPath Root.localUsers username) with _ | e <;>
        simp only [DriverState.clear, hc] at h
      · injection h with h1 h2
        subst h2
        rfl
      · simp at h

theorem getLdapMapping_of_some {g : String} {s : DriverState} {m : LdapRoleMapping}
    (h : lookupKey s.store (GetPath Root.ldapMappings g) = some (Value.ldapMapping m)) :
    getLdapMapping g s = .ok m := by
  simp [getLdapMapping, DriverState.read, h, Value.asLdapMapping]

theorem getLdapMapping_of_none {g : String} {s : DriverState}
    (h : lookupKey s.store (GetPath Root.ldapMappings g) = none) :
    getLdapMapping g s = .error Err.keyNotFound := by
  simp [getLdapMapping, DriverState.read, h]

theorem AddLdapMapping_of_present {f : Faults} {m m2 : LdapRoleMapping}
    {s : DriverState}
    (h : lookupKey s.store (GetPath Root.ldapMappings m.groupName) =
      some (Value.ldapMapping m2)) :
    AddLdapMapping f m s = (some Err.keyExists, s) := by
  simp [AddLdapMapping, getLdapMapping_of_some h]

theorem AddLdapMapping_eq_of_absent {f : Faults} {m : LdapRoleMapping}
    {s : DriverState}
    (hg : lookupKey s.store (GetPath Root.ldapMappings m.groupName) = none)
    (hp : lookupKey s.store (GetPath Root.principals m.principal.uuid) = none)
    (hw1 : f.writeErr (GetPath Root.principals m.principal.uuid) = none)
    (hw2 : f.writeErr (GetPath Root.ldapMappings m.groupName) = none) :
    AddLdapMapping f m s =
      (none,
        ⟨(GetPath Root.ldapMappings m.groupName, Value.ldapMapping m) ::
            ((GetPath Root.principals m.principal.uuid, Value.principal m.principal) ::
                s.store.filter
                  (fun kv => kv.1 != GetPath Root.principals m.principal.uuid)).filter
              (fun kv => kv.1 != GetPath Root.ldapMappings m.groupName),
          s.writes + 2⟩) := by
  simp only [AddLdapMapping, getLdapMapping_of_none hg, addPrincipal,
    DriverState.read, DriverState.write, hp, hw1, hw2]
  simp

theorem AddLdapMapping_ok_spec {f : Faults} {m : LdapRoleMapping}
    {s s1 : DriverState} (h : AddLdapMapping f m s = (none, s1)) :
    lookupKey s.store (GetPath Root.principals m.principal.uuid) = none ∧
    s1.store =
      (GetPath Root.ldapMappings m.groupName, Value.ldapMapping m) ::
        ((GetPath Root.principals m.principal.uuid, Value.principal m.principal) ::
            s.store.filter
              (fun kv => kv.1 != GetPath Root.principals m.principal.uuid)).filter
          (fun kv => kv.1 != GetPath Root.ldapMappings m.groupName) := by
  rcases hg : lookupKey s.store (GetPath Root.ldapMappings m.groupName) with _ | v
  · rcases hp : lookupKey s.store (GetPath Root.principals m.principal.uuid) with _ | pv
    · refine ⟨rfl, ?_⟩
      rcases hw1 : f.writeErr (GetPath Root.principals m.principal.uuid) with _ | e1
      · rcases hw2 : f.writeErr (GetPath Root.ldapMappings m.groupName) with _ | e2
        · rw [AddLdapMapping_eq_of_absent hg hp hw1 hw2] at h
          injection h with h1 h2
          subst h2
          rfl
        · simp [AddLdapMapping, getLdapMapping_of_none hg, addPrincipal,
            DriverState.read, DriverState.write, hp, hw1, hw2] at h
      · simp [AddLdapMapping, getLdapMapping_of_none hg, addPrincipal,
          DriverState.read, DriverState.write, hp, hw1] at h
    · simp [AddLdapMapping, getLdapMapping_of_none hg, addPrincipal,
        DriverState.read, hp] at h
  · rcases v with p | m2 | u
    · simp [AddLdapMapping, getLdapMapping, DriverState.read, hg,
        Value.asLdapMapping] at h
    · rw [AddLdapMapping_of_present hg] at h
      simp at h
    · simp [AddLdapMapping, getLdapMapping, DriverState.read, hg,
        Value.asLdapMapping] at h

theorem deletePrincipal_ok {f : Faults} {p : Principal} {s : DriverState}
    (hc : f.clearErr (GetPath Root.principals p.uuid) = none) :
    deletePrincipal f p s =
      (none, ⟨s.store.filter (fun kv => kv.1 != GetPath Root.principals p.uuid),
        s.writes + 1⟩) := by
  simp [deletePrincipal, DriverState.clear, hc]

theorem DeleteLdapMapping_ok_spec {f : Faults} {g : String} {m : LdapRoleMapping}
    {s s1 : DriverState} (hm : getLdapMapping g s = .ok m)
    (h : DeleteLdapMapping f g s = (none, s1)) :
    s1.store =
      (s.store.filter
          (fun kv => kv.1 != GetPath Root.principals m.principal.uuid)).filter
        (fun kv => kv.1 != GetPath Root.ldapMappings g) := by
  rcases hc1 : f.clearErr (GetPath Root.principals m.principal.uuid) with _ | e1
  · rcases hc2 : f.clearErr (GetPath Root.ldapMappings g) with _ | e2
    · simp only [DeleteLdapMapping, hm, deletePrincipal_ok hc1,
        DriverState.clear, hc2] at h
      injection h with h1 h2
      subst h2
      rfl
    · simp [DeleteLdapMapping, hm, deletePrincipal_ok hc1, DriverState.clear,
        hc2] at h
  · simp [DeleteLdapMapping, hm, deletePrincipal, DriverState.clear, hc1] at h

theorem TrimPrefix_append (pre s : String) : TrimPrefix (pre ++ s) pre = s := by
  have hdata : (pre ++ s).data = pre.data ++ s.data := rfl
  unfold TrimPrefix
  rw [hdata, if_pos (List.isPrefixOf_iff_prefix.mpr (List.prefix_append pre.data s.data)),
    List.drop_left]

/-! ## Claims -/

/-- C10: role-string conversion round-trips on the valid roles `Admin` and
`Ops`, rejects every other string (including the empty one) with `Invalid`
plus the illegal-argument error, and `Invalid` prints as the empty string. -/
theorem c10_role_string_round_trip :
    (∀ r : RoleType, r = RoleType.admin ∨ r = RoleType.ops →
      Role r.String = (r, none)) ∧
    (∀ s : String, s ≠ "admin" → s ≠ "ops" →
      Role s = (RoleType.invalid, some Err.illegalArgument)) ∧
    RoleType.invalid.String = "" := by
  refine ⟨?_, ?_, rfl⟩
  · rintro r (rfl | rfl) <;> rfl
  · intro s h1 h2
    simp [Role, RoleType.String, h1, h2]

/-- Witness for C10 at `Admin`, `Ops` and the unrecognized string `bogus`. -/
theorem c10_role_string_round_trip_witness :
    Role RoleType.admin.String = (RoleType.admin, none) ∧
    Role RoleType.ops.String = (RoleType.ops, none) ∧
    Role "bogus" = (RoleType.invalid, some Err.illegalArgument) :=
  ⟨c10_role_string_round_trip.1 RoleType.admin (Or.inl rfl),
   c10_role_string_round_trip.1 RoleType.ops (Or.inr rfl),
   c10_role_string_round_trip.2.1 "bogus" (by decide) (by decide)⟩

/-- C9: the authorization view conversion strips the tenant prefix from the
stored claim key: a claim key of the form `tenant:` followed by a name yields
exactly that name as tenant field, and an empty (global) claim key yields the
empty tenant field. -/
theorem c9_convert_authz_strips_tenant :
    (∀ (a : Authorization) (name : String), a.claimKey = TenantClaimKey ++ name →
      (convertAuthz a).tenantName = name) ∧
    (∀ a : Authorization, a.claimKey = "" → (convertAuthz a).tenantName = "") := by
  constructor
  · intro a name h
    simp [convertAuthz, h, TrimPrefix_append]
  · intro a h
    have he : TrimPrefix "" TenantClaimKey = "" := by decide
    simp [convertAuthz, h, he]

/-- Witness for C9 at the claim keys `tenant:blue` and the empty key. -/
theorem c9_convert_authz_strips_tenant_witness :
    (convertAuthz ⟨"a1", "alice", "tenant:blue", "ops", true⟩).tenantName = "blue" ∧
    (convertAuthz ⟨"a2", "bob", "", "admin", false⟩).tenantName = "" :=
  ⟨c9_convert_authz_strips_tenant.1 ⟨"a1", "alice", "tenant:blue", "ops", true⟩
      "blue" (by decide),
   c9_convert_authz_strips_tenant.2 ⟨"a2", "bob", "", "admin", false⟩ (by decide)⟩

/-- C5: for both stores, listing a namespace that holds no records yields a
successful empty collection, never an error: the not-found signal of the
store for an empty namespace is normalized into the empty list. -/
theorem c5_get_all_empty_namespace :
    ∀ s : DriverState,
      (s.store.filter (fun kv => kv.1.root == Root.ldapMappings) = [] →
        GetLdapMappings s = .ok []) ∧
      (s.store.filter (fun kv => kv.1.root == Root.localUsers) = [] →
        GetLocalUsers s = .ok []) := by
  intro s
  constructor <;> intro h <;>
    simp [GetLdapMappings, GetLocalUsers, DriverState.readAll, h]

/-- Witness for C5 at the empty store. -/
theorem c5_get_all_empty_namespace_witness :
    GetLdapMappings ⟨[], 0⟩ = .ok [] ∧ GetLocalUsers ⟨[], 0⟩ = .ok [] :=
  ⟨(c5_get_all_empty_namespace ⟨[], 0⟩).1 rfl,
   (c5_get_all_empty_namespace ⟨[], 0⟩).2 rfl⟩

/-- C8: every successful local-user add persists a record whose plaintext
password field is blank and whose hash field carries the digest (computed
from the plaintext before the write when no digest was carried in): the
digest is the only credential form in the persisted record. -/
theorem c8_add_persists_digest_only :
    ∀ (f : Faults) (hash : String → String) (u : LocalUser) (s : DriverState),
      lookupKey s.store (GetPath Root.localUsers u.username) = none →
      f.writeErr (GetPath Root.localUsers u.username) = none →
      (AddLocalUser f hash u s).1 = none ∧
      lookupKey (AddLocalUser f hash u s).2.store (GetPath Root.localUsers u.username) =
        some (Value.localUser
          { username := u.username
            password := ""
            disable := u.disable
            passwordHash := if IsEmpty u.passwordHash then hash u.password
                            else u.passwordHash }) := by
  intro f hash u s hl hw
  rw [AddLocalUser_eq_of_absent hl hw]
  exact ⟨rfl, lookupKey_cons_self _ _ _⟩

/-- Witness for C8: adding `carol` to the empty store persists a blank
password and the digest of `pw123`. -/
theorem c8_add_persists_digest_only_witness :
    (AddLocalUser noFaults (fun p => "H(" ++ p ++ ")")
      ⟨"carol", "pw123", false, ""⟩ ⟨[], 0⟩).1 = none ∧
    lookupKey (AddLocalUser noFaults (fun p => "H(" ++ p ++ ")")
        ⟨"carol", "pw123", false, ""⟩ ⟨[], 0⟩).2.store
      (GetPath Root.localUsers "carol") =
      some (Value.localUser ⟨"carol", "", false, "H(pw123)"⟩) := by
  have h := c8_add_persists_digest_only noFaults (fun p => "H(" ++ p ++ ")")
    ⟨"carol", "pw123", false, ""⟩ ⟨[], 0⟩ (by decide) rfl
  simpa using h

/-- C7: delete and update of either built-in username fail with
`IllegalOperation`, mutate nothing (the driver state is returned untouched),
and the built-in record remains retrievable unchanged afterwards. -/
theorem c7_builtin_delete_update_illegal :
    ∀ (f : Faults) (hash : String → String) (username : String) (u : LocalUser)
      (s : DriverState),
      username = RoleType.admin.String ∨ username = RoleType.ops.String →
      DeleteLocalUser f username s = (some Err.illegalOperation, s) ∧
      UpdateLocalUser f hash username u s = (some Err.illegalOperation, s) ∧
      getLocalUser username (DeleteLocalUser f username s).2 =
        getLocalUser username s ∧
      getLocalUser username (UpdateLocalUser f hash username u s).2 =
        getLocalUser username s := by
  intro f hash username u s hb
  have hd : DeleteLocalUser f username s = (some Err.illegalOperation, s) := by
    unfold DeleteLocalUser
    rw [if_pos hb]
  have hu : UpdateLocalUser f hash username u s = (some Err.illegalOperation, s) := by
    unfold UpdateLocalUser
    rw [hd]
    simp
  exact ⟨hd, hu, by rw [hd], by rw [hu]⟩

/-- Witness for C7: the built-in `admin` user, present in the store, cannot
be deleted or updated, and the state is untouched. -/
theorem c7_builtin_delete_update_illegal_witness :
    DeleteLocalUser noFaults "admin"
        ⟨[(GetPath Root.localUsers "admin", Value.localUser ⟨"admin", "", false, "h0"⟩)], 0⟩ =
      (some Err.illegalOperation,
        ⟨[(GetPath Root.localUsers "admin", Value.localUser ⟨"admin", "", false, "h0"⟩)], 0⟩) ∧
    UpdateLocalUser noFaults (fun p => p) "admin" ⟨"admin", "", true, ""⟩
        ⟨[(GetPath Root.localUsers "admin", Value.localUser ⟨"admin", "", false, "h0"⟩)], 0⟩ =
      (some Err.illegalOperation,
        ⟨[(GetPath Root.localUsers "admin", Value.localUser ⟨"admin", "", false, "h0"⟩)], 0⟩) := by
  have h := c7_builtin_delete_update_illegal noFaults (fun p => p) "admin"
    ⟨"admin", "", true, ""⟩
    ⟨[(GetPath Root.localUsers "admin", Value.localUser ⟨"admin", "", false, "h0"⟩)], 0⟩
    (Or.inl rfl)
  exact ⟨h.1, h.2.1⟩

/-- C6: for both stores, a second add with an already-used key (group name or
username) returns `AlreadyExists` and performs no store operation before the
error: the state after the second call is exactly the state the first add
produced, so the first record is unchanged. -/
theorem c6_add_twice_already_exists :
    (∀ (f f2 : Faults) (m m2 : LdapRoleMapping) (s s1 : DriverState),
      m2.groupName = m.groupName →
      AddLdapMapping f m s = (none, s1) →
      AddLdapMapping f2 m2 s1 = (some Err.keyExists, s1)) ∧
    (∀ (f f2 : Faults) (h1 h2 : String → String) (u u2 : LocalUser)
      (s s1 : DriverState),
      u2.username = u.username →
      AddLocalUser f h1 u s = (none, s1) →
      AddLocalUser f2 h2 u2 s1 = (some Err.keyExists, s1)) := by
  constructor
  · intro f f2 m m2 s s1 hg hAdd
    obtain ⟨-, hstore⟩ := AddLdapMapping_ok_spec hAdd
    have hlook : lookupKey s1.store (GetPath Root.ldapMappings m2.groupName) =
        some (Value.ldapMapping m) := by
      rw [hg, hstore]
      exact lookupKey_cons_self _ _ _
    exact AddLdapMapping_of_present hlook
  · intro f f2 h1 h2 u u2 s s1 hu hAdd
    obtain ⟨-, hstore⟩ := AddLocalUser_ok_spec hAdd
    have hlook : lookupKey s1.store (GetPath Root.localUsers u2.username) =
        some (Value.localUser (storedLocalUser h1 u)) := by
      rw [hu, hstore]
      exact lookupKey_cons_self _ _ _
    exact AddLocalUser_of_present hlook

/-- Witness for C6: re-adding group `eng` (with a fresh principal) and user
`dave` right after their first adds yields `AlreadyExists` with the state of
the first add untouched. -/
theorem c6_add_twice_already_exists_witness :
    AddLdapMapping noFaults ⟨"eng", ⟨"p2", RoleType.admin⟩, "p2"⟩
        ⟨[(GetPath Root.ldapMappings "eng",
            Value.ldapMapping ⟨"eng", ⟨"p1", RoleType.ops⟩, "p1"⟩),
          (GetPath Root.principals "p1", Value.principal ⟨"p1", RoleType.ops⟩)], 2⟩ =
      (some Err.keyExists,
        ⟨[(GetPath Root.ldapMappings "eng",
            Value.ldapMapping ⟨"eng", ⟨"p1", RoleType.ops⟩, "p1"⟩),
          (GetPath Root.principals "p1", Value.principal ⟨"p1", RoleType.ops⟩)], 2⟩) ∧
    AddLocalUser noFaults (fun p => "H(" ++ p ++ ")") ⟨"dave", "pw2", true, ""⟩
        ⟨[(GetPath Root.localUsers "dave",
            Value.localUser ⟨"dave", "", false, "H(pw)"⟩)], 1⟩ =
      (some Err.keyExists,
        ⟨[(GetPath Root.localUsers "dave",
            Value.localUser ⟨"dave", "", false, "H(pw)"⟩)], 1⟩) := by
  refine ⟨c6_add_twice_already_exists.1 noFaults noFaults
      ⟨"eng", ⟨"p1", RoleType.ops⟩, "p1"⟩ ⟨"eng", ⟨"p2", RoleType.admin⟩, "p2"⟩
      ⟨[], 0⟩ _ rfl (by decide),
    c6_add_twice_already_exists.2 noFaults noFaults
      (fun p => "H(" ++ p ++ ")") (fun p => "H(" ++ p ++ ")")
      ⟨"dave", "pw", false, ""⟩ ⟨"dave", "pw2", true, ""⟩ ⟨[], 0⟩ _ rfl (by decide)⟩

/-- C4 counterexample: two updates with no recognized changed field that do
write to the store.  An LDAP-mapping update that supplies the role equal to
the stored one succeeds (returning the unchanged view) but performs the full
delete/add round-trip (four store mutations); a local-user update whose
request changes nothing (role unset, password unset, disabled unchanged)
performs the delete/add round-trip (two store mutations). -/
theorem c4_counterexample :
    (updateLdapMappingInfo noFaults ⟨"eng", "ops"⟩ ⟨"eng", ⟨"p1", RoleType.ops⟩, "p1"⟩
        ⟨[(GetPath Root.ldapMappings "eng",
            Value.ldapMapping ⟨"eng", ⟨"p1", RoleType.ops⟩, "p1"⟩),
          (GetPath Root.principals "p1", Value.principal ⟨"p1", RoleType.ops⟩)],
          0⟩).1 =
      (200, Resp.ldapJson ⟨"eng", "ops"⟩) ∧
    (updateLdapMappingInfo noFaults ⟨"eng", "ops"⟩ ⟨"eng", ⟨"p1", RoleType.ops⟩, "p1"⟩
        ⟨[(GetPath Root.ldapMappings "eng",
            Value.ldapMapping ⟨"eng", ⟨"p1", RoleType.ops⟩, "p1"⟩),
          (GetPath Root.principals "p1", Value.principal ⟨"p1", RoleType.ops⟩)],
          0⟩).2.writes = 4 ∧
    (updateLocalUserInfo noFaults (fun p => "H(" ++ p ++ ")") "bob"
        ⟨"bob", "", "", true⟩ ⟨"bob", "", true, ⟨"p9", RoleType.ops⟩, "p9", "H(secret)"⟩
        ⟨[(GetPath Root.localUsers "bob",
            Value.localUser ⟨"bob", "", true, "H(secret)"⟩)], 0⟩).2.writes = 2 := by
  decide

/-- C4 (amended): the no-write fast path exists only in the LDAP-mapping
update and only when the partial leaves the role unset: such an update
returns the current view of the record and the driver state completely
untouched (no store write).  A supplied-but-equal role, and every local-user
update, perform the delete/add round-trip (see the counterexample). -/
theorem c4_ldap_role_unset_no_write :
    ∀ (f : Faults) (updateReq : ldapMapping) (actual : LdapRoleMapping)
      (s : DriverState),
      IsEmpty updateReq.role = true →
      updateLdapMappingInfo f updateReq actual s =
        ((200, Resp.ldapJson ⟨actual.groupName, actual.principal.role.String⟩), s) := by
  intro f updateReq actual s h
  simp [updateLdapMappingInfo, h]

/-- Witness for C4: an update of `eng` with the role left unset returns the
current view and the untouched state. -/
theorem c4_ldap_role_unset_no_write_witness :
    updateLdapMappingInfo noFaults ⟨"eng", ""⟩ ⟨"eng", ⟨"p1", RoleType.ops⟩, "p1"⟩
        ⟨[(GetPath Root.ldapMappings "eng",
            Value.ldapMapping ⟨"eng", ⟨"p1", RoleType.ops⟩, "p1"⟩),
          (GetPath Root.principals "p1", Value.principal ⟨"p1", RoleType.ops⟩)], 7⟩ =
      ((200, Resp.ldapJson ⟨"eng", "ops"⟩),
        ⟨[(GetPath Root.ldapMappings "eng",
            Value.ldapMapping ⟨"eng", ⟨"p1", RoleType.ops⟩, "p1"⟩),
          (GetPath Root.principals "p1", Value.principal ⟨"p1", RoleType.ops⟩)], 7⟩) := by
  have h := c4_ldap_role_unset_no_write noFaults ⟨"eng", ""⟩
    ⟨"eng", ⟨"p1", RoleType.ops⟩, "p1"⟩
    ⟨[(GetPath Root.ldapMappings "eng",
        Value.ldapMapping ⟨"eng", ⟨"p1", RoleType.ops⟩, "p1"⟩),
      (GetPath Root.principals "p1", Value.principal ⟨"p1", RoleType.ops⟩)], 7⟩ rfl
  exact h

/-- C2 (code bug evaluation): the update merge drops every field the request
leaves unset.  Store: user `bob` with digest `H(secret)` and `disable = true`;
request: no role, no password, `disable = true` (nothing changes).  The code
rewrites the record with digest `H()` — the hash of the empty password — and
`disable = false`, and reports role `admin` (the Go zero value), instead of
retaining the current values as the specification states. -/
theorem c2_update_merge_drops_unset_fields :
    updateLocalUserInfo noFaults (fun p => "H(" ++ p ++ ")") "bob"
        ⟨"bob", "", "", true⟩ ⟨"bob", "", true, ⟨"p9", RoleType.ops⟩, "p9", "H(secret)"⟩
        ⟨[(GetPath Root.localUsers "bob",
            Value.localUser ⟨"bob", "", true, "H(secret)"⟩)], 0⟩ =
      ((200, Resp.userJson ⟨"bob", false, "admin"⟩),
        ⟨[(GetPath Root.localUsers "bob",
            Value.localUser ⟨"bob", "", false, "H()"⟩)], 2⟩) ∧
    ("H()" : String) ≠ "H(secret)" := by
  decide

/-- C3 counterexample: the error returned after a failed forward write of the
mapping is not opaque: it embeds the underlying store error text verbatim, so
two different underlying store errors produce two different returned errors
(were only the failure category exposed, the two results would coincide). -/
theorem c3_counterexample :
    (AddLdapMapping
        ⟨fun k => if k = GetPath Root.ldapMappings "eng"
            then some (Err.errorf "boom-1") else none,
          fun _ => none⟩
        ⟨"eng", ⟨"p1", RoleType.ops⟩, "p1"⟩ ⟨[], 0⟩).1 =
      some (Err.errorf
        ("Failed to write LDAP group mapping info. to data store " ++ "boom-1")) ∧
    (AddLdapMapping
        ⟨fun k => if k = GetPath Root.ldapMappings "eng"
            then some (Err.errorf "boom-2") else none,
          fun _ => none⟩
        ⟨"eng", ⟨"p1", RoleType.ops⟩, "p1"⟩ ⟨[], 0⟩).1 ≠
      (AddLdapMapping
        ⟨fun k => if k = GetPath Root.ldapMappings "eng"
            then some (Err.errorf "boom-1") else none,
          fun _ => none⟩
        ⟨"eng", ⟨"p1", RoleType.ops⟩, "p1"⟩ ⟨[], 0⟩).1 := by
  decide

/-- C3 (amended): when the forward write of the mapping fails after the
Principal was created, the compensating delete of the just-created Principal
runs (whenever the compensating clear succeeds, the Principal is gone from
the final store), the returned error is an internal failure whose message
embeds the underlying store error text, and the outcome of the compensating
delete never influences the returned error (the returned error is the same
whether the compensation succeeds or fails). -/
theorem c3_add_compensation :
    ∀ (f : Faults) (m : LdapRoleMapping) (s : DriverState) (e : Err),
      lookupKey s.store (GetPath Root.ldapMappings m.groupName) = none →
      lookupKey s.store (GetPath Root.principals m.principal.uuid) = none →
      f.writeErr (GetPath Root.principals m.principal.uuid) = none →
      f.writeErr (GetPath Root.ldapMappings m.groupName) = some e →
      (AddLdapMapping f m s).1 =
        some (Err.errorf ("Failed to write LDAP group mapping info. to data store "
          ++ e.text)) ∧
      (f.clearErr (GetPath Root.principals m.principal.uuid) = none →
        lookupKey (AddLdapMapping f m s).2.store
          (GetPath Root.principals m.principal.uuid) = none) := by
  intro f m s e hg hp hw1 hw2
  constructor
  · rcases hc : f.clearErr (GetPath Root.principals m.principal.uuid) with _ | ce <;>
      simp [AddLdapMapping, getLdapMapping_of_none hg, addPrincipal,
        DriverState.read, DriverState.write, deletePrincipal, DriverState.clear,
        hp, hw1, hw2, hc]
  · intro hc
    simp only [AddLdapMapping, getLdapMapping_of_none hg, addPrincipal,
      DriverState.read, DriverState.write, deletePrincipal, DriverState.clear,
      hp, hw1, hw2, hc]
    simp only [ite_true]
    exact lookupKey_filter_self _ _

/-- Witness for C3: adding group `eng` to the empty store with an injected
mapping-write failure `boom-1` returns the embedding error and leaves no
principal behind. -/
theorem c3_add_compensation_witness :
    (AddLdapMapping
        ⟨fun k => if k = GetPath Root.ldapMappings "eng"
            then some (Err.errorf "boom-1") else none,
          fun _ => none⟩
        ⟨"eng", ⟨"p1", RoleType.ops⟩, "p1"⟩ ⟨[], 0⟩).1 =
      some (Err.errorf
        ("Failed to write LDAP group mapping info. to data store "
          ++ (Err.errorf "boom-1").text)) ∧
    lookupKey (AddLdapMapping
        ⟨fun k => if k = GetPath Root.ldapMappings "eng"
            then some (Err.errorf "boom-1") else none,
          fun _ => none⟩
        ⟨"eng", ⟨"p1", RoleType.ops⟩, "p1"⟩ ⟨[], 0⟩).2.store
      (GetPath Root.principals "p1") = none := by
  have h := c3_add_compensation
    ⟨fun k => if k = GetPath Root.ldapMappings "eng"
        then some (Err.errorf "boom-1") else none,
      fun _ => none⟩
    ⟨"eng", ⟨"p1", RoleType.ops⟩, "p1"⟩ ⟨[], 0⟩ (Err.errorf "boom-1")
    rfl rfl (by decide) (by decide)
  exact ⟨h.1, h.2 rfl⟩

theorem countPrincipalsWithId_cons_principal (st : Store) (k : Key) (p : Principal) :
    countPrincipalsWithId ((k, Value.principal p) :: st) p.uuid =
      countPrincipalsWithId st p.uuid + 1 := by
  unfold countPrincipalsWithId
  rw [List.filter_cons_of_pos (by simp [principalPred])]
  rfl

theorem countPrincipalsWithId_cons_of_ne (st : Store) (kv : Key × Value)
    (id : String) (h : principalPred id kv = false) :
    countPrincipalsWithId (kv :: st) id = countPrincipalsWithId st id := by
  unfold countPrincipalsWithId
  rw [List.filter_cons_of_neg (by simp [h])]

theorem countPrincipalsWithId_filter_of_imp :
    ∀ (st : Store) (q : Key × Value → Bool) (id : String),
      (∀ kv ∈ st, principalPred id kv = true → q kv = true) →
      countPrincipalsWithId (st.filter q) id = countPrincipalsWithId st id
  | [], _, _, _ => rfl
  | kv :: rest, q, id, h => by
      have hrest : ∀ kv2 ∈ rest, principalPred id kv2 = true → q kv2 = true :=
        fun kv2 hm => h kv2 (List.mem_cons_of_mem _ hm)
      have ih := countPrincipalsWithId_filter_of_imp rest q id hrest
      unfold countPrincipalsWithId at ih ⊢
      by_cases hp : principalPred id kv = true
      · have hq : q kv = true := h kv (List.mem_cons_self _ _) hp
        rw [List.filter_cons_of_pos hq, List.filter_cons_of_pos hp,
          List.filter_cons_of_pos hp, List.length_cons, List.length_cons, ih]
      · by_cases hq : q kv = true
        · rw [List.filter_cons_of_pos hq, List.filter_cons_of_neg (by simp [hp]),
            List.filter_cons_of_neg (by simp [hp])]
          exact ih
        · rw [List.filter_cons_of_neg (by simp [hq]),
            List.filter_cons_of_neg (by simp [hp])]
          exact ih

theorem principalsWF_key {st : Store} {id : String} {kv : Key × Value}
    (hwf : principalsWF st = true) (hm : kv ∈ st)
    (hp : principalPred id kv = true) :
    kv.1 = GetPath Root.principals id := by
  simp only [principalsWF, List.all_eq_true] at hwf
  unfold principalPred at hp
  match hv : kv.2 with
  | Value.principal p =>
      rw [hv] at hp
      have hid : p.uuid = id := by simpa using hp
      have hkey := hwf kv hm
      rw [hv] at hkey
      have hkey2 : kv.1 = GetPath Root.principals p.uuid := by simpa using hkey
      rw [hkey2, hid]
  | Value.ldapMapping mm => rw [hv] at hp; simp at hp
  | Value.localUser uu => rw [hv] at hp; simp at hp

theorem countPrincipalsWithId_filter_out (st : Store) (id : String)
    (hwf : principalsWF st = true) :
    countPrincipalsWithId
      (st.filter (fun kv => kv.1 != GetPath Root.principals id)) id = 0 := by
  unfold countPrincipalsWithId
  rw [List.length_eq_zero, List.filter_eq_nil_iff]
  intro kv hkv hpred
  obtain ⟨hmem, hne⟩ := List.mem_filter.mp hkv
  rw [principalsWF_key hwf hmem hpred] at hne
  simp at hne

theorem key_ne_of_root_ne {r1 r2 : Root} (h : r1 ≠ r2) (a b : String) :
    ((GetPath r1 a : Key) != GetPath r2 b) = true := by
  simp only [GetPath, bne_iff_ne, ne_eq, Key.mk.injEq, not_and]
  intro hr
  exact absurd hr h

/-- C1 (amended): for the LDAP mapping store the claim holds: a successful add
ends with exactly one Principal whose id is the records principal id and with
the mapping record present; a successful delete removes both the mapping and
its Principal.  The local-user store of this tree persists no Principal at
all: a successful local-user add leaves the Principal count of every id
unchanged, and a successful local-user delete removes only the user record,
also leaving every Principal count unchanged. -/
theorem c1_owning_record_principal_invariant :
    (∀ (f : Faults) (m : LdapRoleMapping) (s s1 : DriverState),
      principalsWF s.store = true →
      m.principalID = m.principal.uuid →
      AddLdapMapping f m s = (none, s1) →
      countPrincipalsWithId s1.store m.principalID = 1 ∧
      lookupKey s1.store (GetPath Root.ldapMappings m.groupName) =
        some (Value.ldapMapping m)) ∧
    (∀ (f : Faults) (g : String) (m : LdapRoleMapping) (s s1 : DriverState),
      principalsWF s.store = true →
      lookupKey s.store (GetPath Root.ldapMappings g) = some (Value.ldapMapping m) →
      m.principalID = m.principal.uuid →
      DeleteLdapMapping f g s = (none, s1) →
      lookupKey s1.store (GetPath Root.ldapMappings g) = none ∧
      countPrincipalsWithId s1.store m.principalID = 0) ∧
    (∀ (f : Faults) (hash : String → String) (u : LocalUser) (s s1 : DriverState),
      AddLocalUser f hash u s = (none, s1) →
      ∀ id, countPrincipalsWithId s1.store id = countPrincipalsWithId s.store id) ∧
    (∀ (f : Faults) (username : String) (s s1 : DriverState),
      principalsWF s.store = true →
      DeleteLocalUser f username s = (none, s1) →
      lookupKey s1.store (GetPath Root.localUsers username) = none ∧
      ∀ id, countPrincipalsWithId s1.store id = countPrincipalsWithId s.store id) := by
  refine ⟨?_, ?_, ?_, ?_⟩
  · intro f m s s1 hwf hpid hAdd
    obtain ⟨hp, hstore⟩ := AddLdapMapping_ok_spec hAdd
    have h0 : countPrincipalsWithId s.store m.principal.uuid = 0 :=
      countPrincipalsWithId_eq_zero hwf hp
    constructor
    · rw [hpid, hstore]
      rw [countPrincipalsWithId_cons_of_ne _ _ _ (by simp [principalPred])]
      have hb : ((GetPath Root.principals m.principal.uuid : Key) !=
          GetPath Root.ldapMappings m.groupName) = true :=
        key_ne_of_root_ne (by decide) _ _
      simp only [List.filter_cons, hb, if_true]
      rw [countPrincipalsWithId_cons_principal]
      have hle := le_trans
        (countPrincipalsWithId_filter_le
          (s.store.filter
            (fun kv => kv.1 != GetPath Root.principals m.principal.uuid))
          (fun kv => kv.1 != GetPath Root.ldapMappings m.groupName)
          m.principal.uuid)
        (countPrincipalsWithId_filter_le s.store
          (fun kv => kv.1 != GetPath Root.principals m.principal.uuid)
          m.principal.uuid)
      omega
    · rw [hstore]
      exact lookupKey_cons_self _ _ _
  · intro f g m s s1 hwf hlook hpid hDel
    have hstore := DeleteLdapMapping_ok_spec (getLdapMapping_of_some hlook) hDel
    constructor
    · rw [hstore]
      exact lookupKey_filter_self _ _
    · rw [hpid, hstore]
      have h0 := countPrincipalsWithId_filter_out s.store m.principal.uuid hwf
      have hle := countPrincipalsWithId_filter_le
        (s.store.filter
          (fun kv => kv.1 != GetPath Root.principals m.principal.uuid))
        (fun kv => kv.1 != GetPath Root.ldapMappings g) m.principal.uuid
      omega
  · intro f hash u s s1 hAdd id
    obtain ⟨hl, hstore⟩ := AddLocalUser_ok_spec hAdd
    rw [hstore, countPrincipalsWithId_cons_of_ne _ _ _ (by simp [principalPred]),
      filter_ne_of_lookup_none hl]
  · intro f username s s1 hwf hDel
    have hstore := DeleteLocalUser_ok_spec hDel
    constructor
    · rw [hstore]
      exact lookupKey_filter_self _ _
    · intro id
      rw [hstore]
      refine countPrincipalsWithId_filter_of_imp _ _ _ ?_
      intro kv hm hp
      rw [principalsWF_key hwf hm hp]
      exact key_ne_of_root_ne (by decide) _ _

/-- C1 counterexample: a successful local-user add persists no Principal at
all.  After adding `alice` to the empty store the add has succeeded, yet the
resulting store contains not a single Principal record, so no Principal
owned by the new record exists (the persisted local-user record of this tree
has no principal id field, and `AddLocalUser` never writes a Principal). -/
theorem c1_counterexample :
    (AddLocalUser noFaults (fun p => "H(" ++ p ++ ")") ⟨"alice", "pw", false, ""⟩
      ⟨[], 0⟩).1 = none ∧
    (AddLocalUser noFaults (fun p => "H(" ++ p ++ ")") ⟨"alice", "pw", false, ""⟩
        ⟨[], 0⟩).2.store.filter
      (fun kv => match kv.2 with | Value.principal _ => true | _ => false) = [] := by
  decide

/-- Witness for C1 at concrete runs of all four operations: adding and
deleting the mapping `eng` (principal `p1`), and adding `alice` and deleting
`bob` in the local-user store. -/
theorem c1_owning_record_principal_invariant_witness :
    countPrincipalsWithId
        [(GetPath Root.ldapMappings "eng",
            Value.ldapMapping ⟨"eng", ⟨"p1", RoleType.ops⟩, "p1"⟩),
          (GetPath Root.principals "p1", Value.principal ⟨"p1", RoleType.ops⟩)]
        "p1" = 1 ∧
    lookupKey
        [(GetPath Root.ldapMappings "eng",
            Value.ldapMapping ⟨"eng", ⟨"p1", RoleType.ops⟩, "p1"⟩),
          (GetPath Root.principals "p1", Value.principal ⟨"p1", RoleType.ops⟩)]
        (GetPath Root.ldapMappings "eng") =
      some (Value.ldapMapping ⟨"eng", ⟨"p1", RoleType.ops⟩, "p1"⟩) ∧
    lookupKey ([] : Store) (GetPath Root.ldapMappings "eng") = none ∧
    countPrincipalsWithId ([] : Store) "p1" = 0 ∧
    countPrincipalsWithId
        [(GetPath Root.localUsers "alice",
            Value.localUser ⟨"alice", "", false, "H(pw)"⟩)] "p7" =
      countPrincipalsWithId ([] : Store) "p7" ∧
    lookupKey ([] : Store) (GetPath Root.localUsers "bob") = none ∧
    countPrincipalsWithId ([] : Store) "p7" =
      countPrincipalsWithId
        [(GetPath Root.localUsers "bob", Value.localUser ⟨"bob", "", false, "hh"⟩)]
        "p7" := by
  have h1 := c1_owning_record_principal_invariant.1 noFaults
    ⟨"eng", ⟨"p1", RoleType.ops⟩, "p1"⟩ ⟨[], 0⟩
    ⟨[(GetPath Root.ldapMappings "eng",
        Value.ldapMapping ⟨"eng", ⟨"p1", RoleType.ops⟩, "p1"⟩),
      (GetPath Root.principals "p1", Value.principal ⟨"p1", RoleType.ops⟩)], 2⟩
    rfl rfl (by decide)
  have h2 := c1_owning_record_principal_invariant.2.1 noFaults "eng"
    ⟨"eng", ⟨"p1", RoleType.ops⟩, "p1"⟩
    ⟨[(GetPath Root.ldapMappings "eng",
        Value.ldapMapping ⟨"eng", ⟨"p1", RoleType.ops⟩, "p1"⟩),
      (GetPath Root.principals "p1", Value.principal ⟨"p1", RoleType.ops⟩)], 2⟩
    ⟨[], 4⟩ (by decide) (by decide) rfl (by decide)
  have h3 := c1_owning_record_principal_invariant.2.2.1 noFaults
    (fun p => "H(" ++ p ++ ")") ⟨"alice", "pw", false, ""⟩ ⟨[], 0⟩
    ⟨[(GetPath Root.localUsers "alice",
        Value.localUser ⟨"alice", "", false, "H(pw)"⟩)], 1⟩
    (by decide) "p7"
  have h4 := c1_owning_record_principal_invariant.2.2.2 noFaults "bob"
    ⟨[(GetPath Root.localUsers "bob", Value.localUser ⟨"bob", "", false, "hh"⟩)], 0⟩
    ⟨[], 1⟩ (by decide) (by decide)
  exact ⟨h1.1, h1.2, h2.1, h2.2, h3, h4.1, h4.2 "p7"⟩

end CcnProxy
